import Mathlib

/-!
Verification development for the ERD generator (src/erd.py, src/main.py).

The in-memory schema model, the graph projection performed by
`add_entity` / `add_relationship`, and the SQL DDL exporter
`export_to_sql` are embedded as executable Lean functions, and the
specification's statements about them are proved or refuted below.

Conventions of the embedding:
* Python dicts keyed by strings become association lists
  (`List (String × _)`); assignment preserves the position of an
  existing key and appends new keys, matching insertion-ordered dicts.
* A Python dict used as a record with optional fields becomes a
  structure whose optional fields are `Option`-valued
  (`attr.get('type', dflt)` reads the `Option`, `attr['type']` is a
  fallible read returning `Option`, propagated as `Option` through
  callers such as `export_to_sql`).
* The networkx `DiGraph` becomes `Graph`: association lists of nodes
  and of directed edges; `add_node` / `add_edge` merge newly given
  attribute fields over existing ones and implicitly create missing
  endpoint nodes, as networkx does.
-/

namespace Erd

/-- An attribute descriptor, as consumed by `add_entity` /
`add_relationship` (src/erd.py:19-23, src/main.py:512-516).
`name` is always read unconditionally (`attr['name']`); `type` is read
both optionally (`attr.get('type', 'VARCHAR')`, src/erd.py:21) and
unconditionally (`attr['type']`, src/main.py:513), so it is
`Option String`; `is_key` / `is_derived` are always read with a
`False` default (src/erd.py:22-23), so a plain `Bool` models them. -/
structure Attr where
  name : String
  type : Option String := none
  is_key : Bool := false
  is_derived : Bool := false
deriving DecidableEq, Repr

/-- Stored relationship record: `{'entities': entities, 'attributes': attributes or []}`
(src/erd.py:39, src/main.py:242). -/
structure RelData where
  entities : List String
  attributes : List Attr := []
deriving DecidableEq, Repr

/-- Node attribute dict of the networkx graph; only these five fields
are ever set by the source (src/erd.py:17, 26-31, 42, 52-55).
`none` means the field is absent from the node's attribute dict. -/
structure NodeData where
  shape : Option String := none
  node_type : Option String := none
  display_name : Option String := none
  is_key : Option Bool := none
  is_derived : Option Bool := none
deriving DecidableEq, Repr

/-- Edge attribute dict of the networkx graph (src/erd.py:35, 46, 56). -/
structure EdgeData where
  edge_type : Option String := none
  style : Option String := none
deriving DecidableEq, Repr

/-- Association-list read, the analogue of `d[k]` / `d.get(k)`. -/
def dictGet {κ α : Type} [DecidableEq κ] : List (κ × α) → κ → Option α
  | [], _ => none
  | (k, v) :: rest, n => if k = n then some v else dictGet rest n

/-- Association-list write `d[k] = v`: replace in place if the key is
present (insertion-ordered dict semantics), else append. -/
def dictInsert {κ α : Type} [DecidableEq κ] : List (κ × α) → κ → α → List (κ × α)
  | [], n, v => [(n, v)]
  | (k, w) :: rest, n, v =>
      if k = n then (k, v) :: rest else (k, w) :: dictInsert rest n v

/-- Merge newly supplied node attributes over existing ones, as
`G.add_node(n, **attrs)` does for an existing node: fields given in the
new dict overwrite, fields not given survive. -/
def NodeData.merge (old new : NodeData) : NodeData where
  shape := new.shape.orElse (fun _ => old.shape)
  node_type := new.node_type.orElse (fun _ => old.node_type)
  display_name := new.display_name.orElse (fun _ => old.display_name)
  is_key := new.is_key.orElse (fun _ => old.is_key)
  is_derived := new.is_derived.orElse (fun _ => old.is_derived)

/-- Merge newly supplied edge attributes over existing ones
(`G.add_edge(u, v, **attrs)` on an existing edge). -/
def EdgeData.merge (old new : EdgeData) : EdgeData where
  edge_type := new.edge_type.orElse (fun _ => old.edge_type)
  style := new.style.orElse (fun _ => old.style)

/-- The networkx `DiGraph`: insertion-ordered node and edge dicts. -/
structure Graph where
  nodes : List (String × NodeData) := []
  edges : List ((String × String) × EdgeData) := []
deriving DecidableEq, Repr

def Graph.empty : Graph := {}

/-- Node attribute lookup `G.nodes[n]`. -/
def getNode (g : Graph) (n : String) : Option NodeData :=
  dictGet g.nodes n

/-- Edge attribute lookup `G.edges[u, v]`. -/
def getEdge (g : Graph) (u v : String) : Option EdgeData :=
  dictGet g.edges (u, v)

/-- `G.add_node(n, **d)`: create the node or merge `d` over its
existing attributes, keeping its position. -/
def addNode (g : Graph) (n : String) (d : NodeData) : Graph :=
  { g with nodes :=
      match getNode g n with
      | some old => dictInsert g.nodes n (old.merge d)
      | none => g.nodes ++ [(n, NodeData.merge {} d)] }

/-- networkx creates missing endpoint nodes of an added edge, with an
empty attribute dict; existing nodes are untouched. -/
def ensureNode (g : Graph) (n : String) : Graph :=
  match getNode g n with
  | some _ => g
  | none => { g with nodes := g.nodes ++ [(n, {})] }

/-- `G.add_edge(u, v, **d)`: ensure both endpoints exist, then create
the edge or merge `d` over its existing attributes. -/
def addEdge (g : Graph) (u v : String) (d : EdgeData) : Graph :=
  let g := ensureNode g u
  let g := ensureNode g v
  { g with edges :=
      match getEdge g u v with
      | some old => dictInsert g.edges (u, v) (old.merge d)
      | none => g.edges ++ [((u, v), EdgeData.merge {} d)] }

/-- The mutable state of an `ERDGenerator` instance: the shared graph
plus the entity and relationship dicts (src/erd.py:9-12). -/
structure State where
  G : Graph := {}
  entities : List (String × List Attr) := []
  relationships : List (String × RelData) := []
deriving DecidableEq, Repr

def emptyState : State := {}

/-- Graph name of the attribute node for attribute `a` of owner
`owner`: `f"{name}_{attr['name']}"` (src/erd.py:20, 51). -/
def attrNodeName (owner : String) (a : Attr) : String :=
  owner ++ "_" ++ a.name

/-- Node attributes given to an entity-attribute node
(src/erd.py:26-31). -/
def entityAttrNodeData (a : Attr) : NodeData where
  shape := some "oval"
  node_type := some "attribute"
  display_name := some (a.name ++ "\n(" ++ a.type.getD "VARCHAR" ++ ")")
  is_key := some a.is_key
  is_derived := some a.is_derived

/-- Per-attribute step of `add_entity`'s loop (src/erd.py:19-35): add
the attribute node, then the ownership edge styled `"dotted"` for a
derived attribute and `"solid"` otherwise. -/
def entityAttrStep (ename : String) (g : Graph) (a : Attr) : Graph :=
  let g := addNode g (attrNodeName ename a) (entityAttrNodeData a)
  addEdge g ename (attrNodeName ename a)
    { edge_type := some "attribute",
      style := some (if a.is_derived then "dotted" else "solid") }

/-- `ERDGenerator.add_entity` (src/erd.py:14-35, identical in
src/main.py:217-238): bind the name in the entity dict
(overwriting any previous binding), add the entity node, then one
attribute node and one ownership edge per attribute. -/
def addEntity (s : State) (name : String) (attributes : List Attr) : State :=
  let g := addNode s.G name { shape := some "box", node_type := some "entity" }
  let g := attributes.foldl (entityAttrStep name) g
  { s with entities := dictInsert s.entities name attributes, G := g }

/-- Node attributes given to a relationship-attribute node
(src/erd.py:52-55): no `is_key` / `is_derived` fields are set. -/
def relAttrNodeData (a : Attr) : NodeData where
  shape := some "oval"
  node_type := some "attribute"
  display_name := some (a.name ++ "\n(" ++ a.type.getD "VARCHAR" ++ ")")

/-- Per-attribute step of `add_relationship`'s loop (src/erd.py:49-56):
the ownership edge carries no `style` field. -/
def relAttrStep (rname : String) (g : Graph) (a : Attr) : Graph :=
  let g := addNode g (attrNodeName rname a) (relAttrNodeData a)
  addEdge g rname (attrNodeName rname a) { edge_type := some "attribute" }

/-- Per-participant step of `add_relationship`'s loop
(src/erd.py:44-46): one participation edge entity→relationship. -/
def participationStep (rname : String) (g : Graph) (e : String) : Graph :=
  addEdge g e rname { edge_type := some "participation" }

/-- `ERDGenerator.add_relationship` (src/erd.py:37-56, identical in
src/main.py:240-259).  The `attributes` parameter defaults to `None`
in the source; `attributes or []` is stored, and the attribute loop
runs only when `attributes` is truthy, i.e. over the stored list. -/
def addRelationship (s : State) (name : String) (ents : List String)
    (attributes : Option (List Attr)) : State :=
  let stored : RelData := { entities := ents, attributes := attributes.getD [] }
  let g := addNode s.G name { shape := some "diamond", node_type := some "relationship" }
  let g := ents.foldl (participationStep name) g
  let g := (attributes.getD []).foldl (relAttrStep name) g
  { s with relationships := dictInsert s.relationships name stored, G := g }

/-- Ingestion shape of one template relationship
(src/erd.py:154-155: `rel_data["entities"]`, `rel_data.get("attributes")`). -/
structure TemplateRel where
  entities : List String
  attributes : Option (List Attr) := none
deriving DecidableEq, Repr

/-- The `{entities, relationships}` structure returned by the template
lookup and fed to the builders (src/erd.py:149-155). -/
structure Template where
  entities : List (String × List Attr) := []
  relationships : List (String × TemplateRel) := []
deriving DecidableEq, Repr

/-- `ERDGenerator.generate_from_ai`'s projection phase
(src/erd.py:137-157): clear the shared graph and both dicts, then
rebuild everything from the template via `add_entity` /
`add_relationship`.  The prior state is fully discarded by the three
`clear()` calls (src/erd.py:145-147). -/
def generateFromTemplate (s : State) (t : Template) : State :=
  let _ := s
  let cleared : State := {}
  let afterEntities := t.entities.foldl (fun st p => addEntity st p.1 p.2) cleared
  t.relationships.foldl
    (fun st p => addRelationship st p.1 p.2.entities p.2.attributes) afterEntities

/-- Effective drawing style of an edge: `d.get('style', 'solid')`
(src/erd.py:340). -/
def effectiveStyle (d : EdgeData) : String :=
  d.style.getD "solid"

/-- Whether the renderer draws the edge with a dashed line style: the
edges collected as `dotted_edges` (style attribute `'dotted'`,
src/erd.py:341) are drawn with `style='dashed'` (src/erd.py:349-351);
all other edges are drawn solid (src/erd.py:340, 344-346). -/
def renderedDashed (d : EdgeData) : Bool :=
  d.style == some "dotted"

/-- One column definition line `f"    {attr['name']} {attr['type']}"`
(src/main.py:513, 545); `none` models the `KeyError` raised when the
attribute dict has no `'type'` key. -/
def colDef (a : Attr) : Option String :=
  a.type.map (fun t => "    " ++ a.name ++ " " ++ t)

/-- Entity part of `ERDGenerator.export_to_sql` for one entity
(src/main.py:507-524): column list in attribute order, then a
`PRIMARY KEY` clause over the `is_key` attributes when there are any. -/
def entityTableSql (name : String) (attributes : List Attr) : Option String := do
  let defs ← attributes.mapM colDef
  let pks := (attributes.filter (fun a => a.is_key)).map (fun a => a.name)
  let core := "CREATE TABLE " ++ name ++ " (\n" ++ String.intercalate ",\n" defs
  let withPk :=
    if pks.isEmpty then core
    else core ++ ",\n    PRIMARY KEY (" ++ String.intercalate ", " pks ++ ")"
  return withPk ++ "\n);"

/-- Join-column name for a participant:
`next((attr['name'] for attr in attrs if attr.get('is_key')), fallback)`
(src/main.py:533-534) — the first key attribute's name, else the
synthesized fallback. -/
def pkNameOf (attrs : List Attr) (fallback : String) : String :=
  ((attrs.find? (fun a => a.is_key)).map (fun a => a.name)).getD fallback

/-- Body of `ERDGenerator._get_pk_type` on an attribute list
(src/main.py:556-561): the first key attribute's `'type'` value
(a `KeyError`, i.e. `none`, when that attribute has no type), else
`"INT"`. -/
def pkTypeOf (attrs : List Attr) : Option String :=
  match attrs.find? (fun a => a.is_key) with
  | some a => a.type
  | none => some "INT"

/-- `ERDGenerator._get_pk_type` (src/main.py:556-561), including the
`KeyError` on an unregistered entity name. -/
def getPkType (entities : List (String × List Attr)) (e : String) : Option String := do
  let attrs ← dictGet entities e
  pkTypeOf attrs

/-- Relationship part of `export_to_sql` for one relationship
(src/main.py:527-552).  For a binary relationship the participant
lookups `self.entities[entity1]` / `self.entities[entity2]` happen
before the attribute gate, so an unregistered participant is a
`KeyError` (`none`) even when no join table would be emitted; a
relationship with a participant count other than 2 is skipped without
any lookup.  The emitted list holds the join-table statement exactly
when the relationship has two participants and a nonempty attribute
list. -/
def relStatement (entities : List (String × List Attr)) (p : String × RelData) :
    Option (List String) :=
  match p.2.entities with
  | [e1, e2] => do
      let a1 ← dictGet entities e1
      let a2 ← dictGet entities e2
      let pk1 := pkNameOf a1 (e1.toLower ++ "_id")
      let pk2 := pkNameOf a2 (e2.toLower ++ "_id")
      if p.2.attributes.isEmpty then
        return []
      else do
        let t1 ← pkTypeOf a1
        let t2 ← pkTypeOf a2
        let attrLines ← p.2.attributes.mapM colDef
        let defs := ("    " ++ pk1 ++ " " ++ t1) :: ("    " ++ pk2 ++ " " ++ t2) :: attrLines
        let sql := "CREATE TABLE " ++ p.1 ++ " (\n" ++ String.intercalate ",\n" defs
          ++ ",\n    PRIMARY KEY (" ++ pk1 ++ ", " ++ pk2 ++ ")"
          ++ ",\n    FOREIGN KEY (" ++ pk1 ++ ") REFERENCES " ++ e1 ++ "(" ++ pk1 ++ ")"
          ++ ",\n    FOREIGN KEY (" ++ pk2 ++ ") REFERENCES " ++ e2 ++ "(" ++ pk2 ++ ")"
          ++ "\n);"
        return [sql]
  | _ => some []

/-- `ERDGenerator.export_to_sql` as the ordered list of emitted
statements (src/main.py:502-554): one entity table per entity in
insertion order, then the join tables of the qualifying relationships
in insertion order. -/
def exportStatements (s : State) : Option (List String) := do
  let entStmts ← s.entities.mapM (fun p => entityTableSql p.1 p.2)
  let relStmts ← s.relationships.mapM (relStatement s.entities)
  return entStmts ++ relStmts.flatten

/-- `ERDGenerator.export_to_sql` (src/main.py:502-554): the statements
joined with blank lines. -/
def exportToSql (s : State) : Option String :=
  (exportStatements s).map (String.intercalate "\n\n")

/-!
Specification-side definitions.  The following functions are written
from the specification's words (spec.md §4.3) rather than from the
source, to state refinement: the exporter's output is proved equal to
these below.
-/

/-- Spec §4.3 item 1: `CREATE TABLE <name> (<col list>, PRIMARY KEY
(<key cols>))`, column order = attribute insertion order, the
`PRIMARY KEY` clause listing exactly the key attribute names in
declaration order and omitted when there are none.  The spec's default
type label `VARCHAR` (§3) stands in for an absent type. -/
def specEntityTable (n : String) (al : List Attr) : String :=
  let cols := al.map (fun a => "    " ++ a.name ++ " " ++ a.type.getD "VARCHAR")
  let keys := (al.filter (fun a => a.is_key)).map (fun a => a.name)
  "CREATE TABLE " ++ n ++ " (\n" ++ String.intercalate ",\n" cols
    ++ (if keys.isEmpty then ""
        else ",\n    PRIMARY KEY (" ++ String.intercalate ", " keys ++ ")")
    ++ "\n);"

/-- Spec §4.3 item 2: a participant's join-column name and type are its
own primary-key attribute's name and type; when it has no key
attribute, the synthesized name `<entityNameLower>_id` with type `INT`.
(The spec fixes no type for a key attribute that itself lacks a type
label; `INT` is used, and the refinement theorems below are stated
where the exporter succeeds, so that case never arises there.) -/
def specPkCol (entities : List (String × List Attr)) (e : String) : String × String :=
  match ((dictGet entities e).getD []).find? (fun a => a.is_key) with
  | some a => (a.name, a.type.getD "INT")
  | none => (e.toLower ++ "_id", "INT")

/-- Spec §4.3 item 2: the join-table statement for a binary
relationship with attributes — the two participant primary-key
columns, the relationship's own attribute columns, a composite
`PRIMARY KEY` over the two participant columns, and two `FOREIGN KEY`
clauses referencing each participant table's key column. -/
def specJoinTable (entities : List (String × List Attr)) (rn : String)
    (rd : RelData) : String :=
  match rd.entities with
  | [e1, e2] =>
      let p1 := specPkCol entities e1
      let p2 := specPkCol entities e2
      let cols := ("    " ++ p1.1 ++ " " ++ p1.2) :: ("    " ++ p2.1 ++ " " ++ p2.2)
        :: rd.attributes.map (fun a => "    " ++ a.name ++ " " ++ a.type.getD "VARCHAR")
      "CREATE TABLE " ++ rn ++ " (\n" ++ String.intercalate ",\n" cols
        ++ ",\n    PRIMARY KEY (" ++ p1.1 ++ ", " ++ p2.1 ++ ")"
        ++ ",\n    FOREIGN KEY (" ++ p1.1 ++ ") REFERENCES " ++ e1 ++ "(" ++ p1.1 ++ ")"
        ++ ",\n    FOREIGN KEY (" ++ p2.1 ++ ") REFERENCES " ++ e2 ++ "(" ++ p2.1 ++ ")"
        ++ "\n);"
  | _ => ""

/-- The attribute gate of the join-table emitter: exactly 2
participants and at least one relationship attribute
(src/main.py:528, 537). -/
def joinGate (rd : RelData) : Bool :=
  rd.entities.length == 2 && !rd.attributes.isEmpty

/-! Association-list lemmas. -/

theorem dictGet_dictInsert_self {κ α : Type} [DecidableEq κ] (m : List (κ × α)) (k : κ) (v : α) :
    dictGet (dictInsert m k v) k = some v := by
  induction m with
  | nil => simp [dictGet, dictInsert]
  | cons p rest ih =>
      obtain ⟨q, w⟩ := p
      by_cases h : q = k
      · subst h; simp [dictGet, dictInsert]
      · simp [dictGet, dictInsert, h, ih]

theorem dictGet_dictInsert_ne {κ α : Type} [DecidableEq κ] (m : List (κ × α)) {n k : κ} (v : α)
    (h : n ≠ k) : dictGet (dictInsert m k v) n = dictGet m n := by
  induction m with
  | nil => simp [dictGet, dictInsert, Ne.symm h]
  | cons p rest ih =>
      obtain ⟨q, w⟩ := p
      by_cases hq : q = k
      · subst hq
        simp [dictGet, dictInsert, Ne.symm h]
      · by_cases hn : q = n
        · subst hn; simp [dictGet, dictInsert, hq]
        · simp [dictGet, dictInsert, hq, hn, ih]

theorem dictGet_append_single_ne {κ α : Type} [DecidableEq κ] (m : List (κ × α)) {n k : κ}
    (v : α) (h : n ≠ k) : dictGet (m ++ [(k, v)]) n = dictGet m n := by
  induction m with
  | nil => simp [dictGet, Ne.symm h]
  | cons p rest ih =>
      obtain ⟨q, w⟩ := p
      by_cases hn : q = n
      · subst hn; simp [dictGet]
      · simp [dictGet, hn, ih]

theorem dictGet_append_single_self {κ α : Type} [DecidableEq κ] {m : List (κ × α)} {k : κ}
    (v : α) (h : dictGet m k = none) : dictGet (m ++ [(k, v)]) k = some v := by
  induction m with
  | nil => simp [dictGet]
  | cons p rest ih =>
      obtain ⟨q, w⟩ := p
      by_cases hq : q = k
      · subst hq; simp [dictGet] at h
      · simp [dictGet, hq] at h ⊢
        exact ih h

/-! Graph operation lemmas. -/

theorem edges_addNode (g : Graph) (n : String) (d : NodeData) :
    (addNode g n d).edges = g.edges := by
  unfold addNode
  cases getNode g n <;> rfl

theorem edges_ensureNode (g : Graph) (n : String) :
    (ensureNode g n).edges = g.edges := by
  unfold ensureNode
  cases getNode g n <;> rfl

theorem getEdge_addNode (g : Graph) (n : String) (d : NodeData) (u v : String) :
    getEdge (addNode g n d) u v = getEdge g u v := by
  unfold getEdge
  rw [edges_addNode]

theorem getEdge_ensureNode (g : Graph) (n : String) (u v : String) :
    getEdge (ensureNode g n) u v = getEdge g u v := by
  unfold getEdge
  rw [edges_ensureNode]

theorem getNode_addNode_self (g : Graph) (n : String) (d : NodeData) :
    getNode (addNode g n d) n = some (((getNode g n).getD {}).merge d) := by
  unfold addNode
  cases h : getNode g n with
  | some old => simpa [getNode] using dictGet_dictInsert_self g.nodes n (old.merge d)
  | none =>
      unfold getNode at h ⊢
      simpa using dictGet_append_single_self (NodeData.merge {} d) h

theorem getNode_addNode_ne (g : Graph) {m n : String} (d : NodeData) (h : m ≠ n) :
    getNode (addNode g n d) m = getNode g m := by
  unfold addNode
  cases hg : getNode g n with
  | some old => simpa [getNode] using dictGet_dictInsert_ne g.nodes (old.merge d) h
  | none => simpa [getNode] using dictGet_append_single_ne g.nodes (NodeData.merge {} d) h

theorem getNode_ensureNode_ne (g : Graph) {m n : String} (h : m ≠ n) :
    getNode (ensureNode g n) m = getNode g m := by
  unfold ensureNode
  cases hg : getNode g n with
  | some old => rfl
  | none => simpa [getNode] using dictGet_append_single_ne g.nodes {} h

theorem getNode_ensureNode_some (g : Graph) {m n : String} {d0 : NodeData}
    (h : getNode g m = some d0) : getNode (ensureNode g n) m = some d0 := by
  by_cases hmn : m = n
  · subst hmn
    unfold ensureNode
    rw [h]
    exact h
  · rw [getNode_ensureNode_ne g hmn]
    exact h

theorem nodes_addEdge (g : Graph) (u v : String) (d : EdgeData) :
    (addEdge g u v d).nodes = (ensureNode (ensureNode g u) v).nodes := by
  unfold addEdge
  cases getEdge (ensureNode (ensureNode g u) v) u v <;> rfl

theorem getNode_addEdge_ne (g : Graph) {m : String} {u v : String} (d : EdgeData)
    (hu : m ≠ u) (hv : m ≠ v) : getNode (addEdge g u v d) m = getNode g m := by
  unfold getNode
  rw [nodes_addEdge]
  have h1 := getNode_ensureNode_ne (ensureNode g u) hv
  have h2 := getNode_ensureNode_ne g hu
  unfold getNode at h1 h2
  rw [h1, h2]

theorem getNode_addEdge_some (g : Graph) {m : String} {u v : String} (d : EdgeData)
    {d0 : NodeData} (h : getNode g m = some d0) :
    getNode (addEdge g u v d) m = some d0 := by
  unfold getNode
  rw [nodes_addEdge]
  have h2 := getNode_ensureNode_some (ensureNode g u) (n := v)
    (getNode_ensureNode_some g (n := u) h)
  unfold getNode at h2
  exact h2

theorem getEdge_addEdge_self (g : Graph) (u v : String) (d : EdgeData) :
    getEdge (addEdge g u v d) u v = some (((getEdge g u v).getD {}).merge d) := by
  unfold addEdge
  dsimp only
  have he : (ensureNode (ensureNode g u) v).edges = g.edges := by
    rw [edges_ensureNode, edges_ensureNode]
  rw [getEdge_ensureNode, getEdge_ensureNode]
  cases h : getEdge g u v with
  | some old =>
      unfold getEdge
      simp only [he]
      simpa using dictGet_dictInsert_self g.edges (u, v) (old.merge d)
  | none =>
      unfold getEdge at h ⊢
      simp only [he]
      simpa using dictGet_append_single_self (EdgeData.merge {} d) h

theorem getEdge_addEdge_ne (g : Graph) {p q u v : String} (d : EdgeData)
    (h : (p, q) ≠ (u, v)) : getEdge (addEdge g u v d) p q = getEdge g p q := by
  unfold addEdge
  dsimp only
  rw [getEdge_ensureNode, getEdge_ensureNode]
  have he : (ensureNode (ensureNode g u) v).edges = g.edges := by
    rw [edges_ensureNode, edges_ensureNode]
  cases hg : getEdge g u v with
  | some old =>
      unfold getEdge
      simp only [he]
      exact dictGet_dictInsert_ne g.edges (old.merge d) h
  | none =>
      unfold getEdge
      simp only [he]
      exact dictGet_append_single_ne g.edges (EdgeData.merge {} d) h

/-! Merge-absorption facts: a node or edge write that supplies every
field overwrites whatever was there before. -/

theorem merge_entityAttrNodeData (old : NodeData) (a : Attr) :
    old.merge (entityAttrNodeData a) = entityAttrNodeData a := rfl

theorem merge_edge_full (old : EdgeData) (et st : String) :
    old.merge { edge_type := some et, style := some st }
      = { edge_type := some et, style := some st } := rfl

theorem merge_edge_type_only (old : EdgeData) (et : String) :
    old.merge { edge_type := some et }
      = { edge_type := some et, style := old.style } := rfl

/-! String disjointness facts about the generated node names. -/

theorem attrNodeName_ne_owner (owner : String) (a : Attr) :
    attrNodeName owner a ≠ owner := by
  intro h
  have h2 := congrArg String.length h
  unfold attrNodeName at h2
  rw [String.length_append, String.length_append] at h2
  have h3 : ("_" : String).length = 1 := rfl
  omega

theorem attrNodeName_inj (owner : String) {a b : Attr}
    (h : attrNodeName owner a = attrNodeName owner b) : a.name = b.name := by
  unfold attrNodeName at h
  have h2 := congrArg String.data h
  simp [String.data_append] at h2
  exact String.ext h2

/-! Entity-attribute loop lemmas. -/

theorem getNode_entityAttrStep_self (ename : String) (g : Graph) (a : Attr) :
    getNode (entityAttrStep ename g a) (attrNodeName ename a) = some (entityAttrNodeData a) := by
  unfold entityAttrStep
  dsimp only
  refine getNode_addEdge_some _ _ ?_
  rw [getNode_addNode_self]
  rw [merge_entityAttrNodeData]

theorem getNode_entityAttrStep_pres (ename : String) (g : Graph) (a : Attr) {m : String}
    {d0 : NodeData} (h : getNode g m = some d0) (hm : m ≠ attrNodeName ename a) :
    getNode (entityAttrStep ename g a) m = some d0 := by
  unfold entityAttrStep
  dsimp only
  refine getNode_addEdge_some _ _ ?_
  rw [getNode_addNode_ne _ _ hm]
  exact h

theorem getEdge_entityAttrStep_self (ename : String) (g : Graph) (a : Attr) :
    getEdge (entityAttrStep ename g a) ename (attrNodeName ename a)
      = some { edge_type := some "attribute",
               style := some (if a.is_derived then "dotted" else "solid") } := by
  unfold entityAttrStep
  dsimp only
  rw [getEdge_addEdge_self]
  rw [merge_edge_full]

theorem getEdge_entityAttrStep_ne (ename : String) (g : Graph) (a : Attr) {p q : String}
    (h : (p, q) ≠ (ename, attrNodeName ename a)) :
    getEdge (entityAttrStep ename g a) p q = getEdge g p q := by
  unfold entityAttrStep
  dsimp only
  rw [getEdge_addEdge_ne _ _ h, getEdge_addNode]

theorem getNode_foldl_entity_pres (ename : String) (l : List Attr) (g : Graph) {m : String}
    {d0 : NodeData} (h : getNode g m = some d0) (hm : ∀ a ∈ l, m ≠ attrNodeName ename a) :
    getNode (l.foldl (entityAttrStep ename) g) m = some d0 := by
  induction l generalizing g with
  | nil => exact h
  | cons a rest ih =>
      simp only [List.foldl_cons]
      exact ih _ (getNode_entityAttrStep_pres ename g a h (hm a (by simp)))
        (fun b hb => hm b (by simp [hb]))

theorem getEdge_foldl_entity_eq (ename : String) (l : List Attr) (g : Graph) {p q : String}
    (hm : ∀ a ∈ l, (p, q) ≠ (ename, attrNodeName ename a)) :
    getEdge (l.foldl (entityAttrStep ename) g) p q = getEdge g p q := by
  induction l generalizing g with
  | nil => rfl
  | cons a rest ih =>
      simp only [List.foldl_cons]
      rw [ih _ (fun b hb => hm b (by simp [hb]))]
      exact getEdge_entityAttrStep_ne ename g a (hm a (by simp))

/-! Relationship-attribute loop lemmas. -/

theorem getNode_relAttrStep_pres (rname : String) (g : Graph) (a : Attr) {m : String}
    {d0 : NodeData} (h : getNode g m = some d0) (hm : m ≠ attrNodeName rname a) :
    getNode (relAttrStep rname g a) m = some d0 := by
  unfold relAttrStep
  dsimp only
  refine getNode_addEdge_some _ _ ?_
  rw [getNode_addNode_ne _ _ hm]
  exact h

theorem getNode_foldl_relAttr_pres (rname : String) (l : List Attr) (g : Graph) {m : String}
    {d0 : NodeData} (h : getNode g m = some d0) (hm : ∀ a ∈ l, m ≠ attrNodeName rname a) :
    getNode (l.foldl (relAttrStep rname) g) m = some d0 := by
  induction l generalizing g with
  | nil => exact h
  | cons a rest ih =>
      simp only [List.foldl_cons]
      exact ih _ (getNode_relAttrStep_pres rname g a h (hm a (by simp)))
        (fun b hb => hm b (by simp [hb]))

theorem getNode_relAttrStep_self (rname : String) (g : Graph) (a : Attr) :
    ∃ d, getNode (relAttrStep rname g a) (attrNodeName rname a) = some d
      ∧ d.shape = some "oval" ∧ d.node_type = some "attribute"
      ∧ d.display_name = some (a.name ++ "\n(" ++ a.type.getD "VARCHAR" ++ ")") := by
  unfold relAttrStep
  dsimp only
  refine ⟨((getNode g (attrNodeName rname a)).getD {}).merge (relAttrNodeData a),
    getNode_addEdge_some _ _ (getNode_addNode_self _ _ _), rfl, rfl, rfl⟩

theorem getEdge_relAttrStep_ne (rname : String) (g : Graph) (a : Attr) {p q : String}
    (h : (p, q) ≠ (rname, attrNodeName rname a)) :
    getEdge (relAttrStep rname g a) p q = getEdge g p q := by
  unfold relAttrStep
  dsimp only
  rw [getEdge_addEdge_ne _ _ h, getEdge_addNode]

theorem getEdge_foldl_relAttr_eq (rname : String) (l : List Attr) (g : Graph) {p q : String}
    (hm : ∀ a ∈ l, (p, q) ≠ (rname, attrNodeName rname a)) :
    getEdge (l.foldl (relAttrStep rname) g) p q = getEdge g p q := by
  induction l generalizing g with
  | nil => rfl
  | cons a rest ih =>
      simp only [List.foldl_cons]
      rw [ih _ (fun b hb => hm b (by simp [hb]))]
      exact getEdge_relAttrStep_ne rname g a (hm a (by simp))

theorem getEdge_relAttrStep_self (rname : String) (g : Graph) (a : Attr) :
    getEdge (relAttrStep rname g a) rname (attrNodeName rname a)
      = some { edge_type := some "attribute",
               style := (((getEdge g rname (attrNodeName rname a)).getD {})).style } := by
  unfold relAttrStep
  dsimp only
  rw [getEdge_addEdge_self, getEdge_addNode, merge_edge_type_only]

/-! Participation loop lemmas. -/

theorem getNode_participationStep_pres (rname : String) (g : Graph) (e : String) {m : String}
    {d0 : NodeData} (h : getNode g m = some d0) :
    getNode (participationStep rname g e) m = some d0 :=
  getNode_addEdge_some _ _ h

theorem getNode_foldl_participation_pres (rname : String) (l : List String) (g : Graph)
    {m : String} {d0 : NodeData} (h : getNode g m = some d0) :
    getNode (l.foldl (participationStep rname) g) m = some d0 := by
  induction l generalizing g with
  | nil => exact h
  | cons e rest ih =>
      simp only [List.foldl_cons]
      exact ih _ (getNode_participationStep_pres rname g e h)

theorem getEdge_participationStep_ne (rname : String) (g : Graph) (e : String) {p q : String}
    (h : (p, q) ≠ (e, rname)) :
    getEdge (participationStep rname g e) p q = getEdge g p q :=
  getEdge_addEdge_ne _ _ h

theorem getEdge_foldl_participation_ne_target (rname : String) (l : List String) (g : Graph)
    {p q : String} (hq : q ≠ rname) :
    getEdge (l.foldl (participationStep rname) g) p q = getEdge g p q := by
  induction l generalizing g with
  | nil => rfl
  | cons e rest ih =>
      simp only [List.foldl_cons]
      rw [ih]
      exact getEdge_participationStep_ne rname g e (by simp [hq])

/-- A participation edge, once present, survives every later
participation step (a duplicate participant merely rewrites the same
`edge_type`). -/
theorem participation_pres_step (rname : String) (g : Graph) (e e' : String)
    (h : ∃ d, getEdge g e rname = some d ∧ d.edge_type = some "participation") :
    ∃ d, getEdge (participationStep rname g e') e rname = some d
      ∧ d.edge_type = some "participation" := by
  by_cases he : e = e'
  · subst he
    refine ⟨((getEdge g e rname).getD {}).merge { edge_type := some "participation" },
      getEdge_addEdge_self _ _ _ _, rfl⟩
  · obtain ⟨d, hd, het⟩ := h
    refine ⟨d, ?_, het⟩
    rw [getEdge_participationStep_ne rname g e' (by simp [he])]
    exact hd

theorem participation_pres_fold (rname : String) (l : List String) (g : Graph) (e : String)
    (h : ∃ d, getEdge g e rname = some d ∧ d.edge_type = some "participation") :
    ∃ d, getEdge (l.foldl (participationStep rname) g) e rname = some d
      ∧ d.edge_type = some "participation" := by
  induction l generalizing g with
  | nil => exact h
  | cons x xs ih =>
      simp only [List.foldl_cons]
      exact ih _ (participation_pres_step rname g e x h)

theorem getEdge_foldl_participation_mem (rname : String) (l : List String) (g : Graph)
    {e : String} (he : e ∈ l) :
    ∃ d, getEdge (l.foldl (participationStep rname) g) e rname = some d
      ∧ d.edge_type = some "participation" := by
  induction l generalizing g with
  | nil => cases he
  | cons x rest ih =>
      simp only [List.foldl_cons]
      by_cases hr : e ∈ rest
      · exact ih _ hr
      · have hee : e = x := by
          rcases List.mem_cons.mp he with h | h
          · exact h
          · exact absurd h hr
        subst hee
        refine participation_pres_fold rname rest _ e
          ⟨((getEdge g e rname).getD {}).merge { edge_type := some "participation" },
            getEdge_addEdge_self _ _ _ _, rfl⟩

/-! Characterization of `addEntity` and `addRelationship`. -/

theorem addEntity_entities (s : State) (n : String) (al : List Attr) :
    (addEntity s n al).entities = dictInsert s.entities n al := rfl

theorem addEntity_relationships (s : State) (n : String) (al : List Attr) :
    (addEntity s n al).relationships = s.relationships := rfl

theorem addEntity_G (s : State) (n : String) (al : List Attr) :
    (addEntity s n al).G
      = al.foldl (entityAttrStep n)
          (addNode s.G n { shape := some "box", node_type := some "entity" }) := rfl

theorem addRelationship_relationships (s : State) (n : String) (ents : List String)
    (oattrs : Option (List Attr)) :
    (addRelationship s n ents oattrs).relationships
      = dictInsert s.relationships n { entities := ents, attributes := oattrs.getD [] } := rfl

theorem addRelationship_entities (s : State) (n : String) (ents : List String)
    (oattrs : Option (List Attr)) :
    (addRelationship s n ents oattrs).entities = s.entities := rfl

theorem addRelationship_G (s : State) (n : String) (ents : List String)
    (oattrs : Option (List Attr)) :
    (addRelationship s n ents oattrs).G
      = (oattrs.getD []).foldl (relAttrStep n)
          (ents.foldl (participationStep n)
            (addNode s.G n { shape := some "diamond", node_type := some "relationship" })) := rfl

/-- Splitting an attribute list with nodup names around one element. -/
theorem nodup_split_names {l1 l2 : List Attr} {a : Attr}
    (hnd : (((l1 ++ a :: l2).map Attr.name)).Nodup) :
    (∀ b ∈ l1, b.name ≠ a.name) ∧ (∀ b ∈ l2, a.name ≠ b.name) := by
  rw [List.map_append, List.map_cons] at hnd
  rw [List.nodup_append] at hnd
  obtain ⟨h1, h2, hdisj⟩ := hnd
  constructor
  · intro b hb heq
    exact hdisj (List.mem_map_of_mem _ hb) (by rw [heq]; exact List.mem_cons_self _ _)
  · rw [List.nodup_cons] at h2
    intro b hb heq
    exact h2.1 (by rw [heq]; exact List.mem_map_of_mem _ hb)

theorem getNode_addEntity_name (s : State) (n : String) (al : List Attr) :
    ∃ d, getNode (addEntity s n al).G n = some d
      ∧ d.shape = some "box" ∧ d.node_type = some "entity" := by
  rw [addEntity_G]
  refine ⟨((getNode s.G n).getD {}).merge { shape := some "box", node_type := some "entity" },
    ?_, rfl, rfl⟩
  exact getNode_foldl_entity_pres n al _ (getNode_addNode_self s.G n _)
    (fun a _ => (attrNodeName_ne_owner n a).symm)

theorem getNode_addEntity_attr (s : State) (n : String) {al : List Attr}
    (hnd : (al.map Attr.name).Nodup) {a : Attr} (ha : a ∈ al) :
    getNode (addEntity s n al).G (attrNodeName n a) = some (entityAttrNodeData a) := by
  rw [addEntity_G]
  obtain ⟨l1, l2, rfl⟩ := List.append_of_mem ha
  have hnames := nodup_split_names hnd
  rw [List.foldl_append, List.foldl_cons]
  refine getNode_foldl_entity_pres n l2 _ (getNode_entityAttrStep_self n _ a) ?_
  intro b hb heq
  exact hnames.2 b hb (attrNodeName_inj n heq)

theorem getEdge_addEntity_attr (s : State) (n : String) {al : List Attr}
    (hnd : (al.map Attr.name).Nodup) {a : Attr} (ha : a ∈ al) :
    getEdge (addEntity s n al).G n (attrNodeName n a)
      = some { edge_type := some "attribute",
               style := some (if a.is_derived then "dotted" else "solid") } := by
  rw [addEntity_G]
  obtain ⟨l1, l2, rfl⟩ := List.append_of_mem ha
  have hnames := nodup_split_names hnd
  rw [List.foldl_append, List.foldl_cons]
  rw [getEdge_foldl_entity_eq n l2 _ ?hm]
  case hm =>
    intro b hb heq
    rw [Prod.mk.injEq] at heq
    exact hnames.2 b hb (attrNodeName_inj n heq.2)
  exact getEdge_entityAttrStep_self n _ a

theorem getNode_addRelationship_name (s : State) (n : String) (ents : List String)
    (oattrs : Option (List Attr)) :
    ∃ d, getNode (addRelationship s n ents oattrs).G n = some d
      ∧ d.shape = some "diamond" ∧ d.node_type = some "relationship" := by
  rw [addRelationship_G]
  refine ⟨((getNode s.G n).getD {}).merge
    { shape := some "diamond", node_type := some "relationship" }, ?_, rfl, rfl⟩
  refine getNode_foldl_relAttr_pres n _ _ ?_ (fun a _ => (attrNodeName_ne_owner n a).symm)
  exact getNode_foldl_participation_pres n ents _ (getNode_addNode_self s.G n _)

theorem getEdge_addRelationship_participation (s : State) (n : String) {ents : List String}
    (oattrs : Option (List Attr)) {e : String} (he : e ∈ ents) :
    ∃ d, getEdge (addRelationship s n ents oattrs).G e n = some d
      ∧ d.edge_type = some "participation" := by
  rw [addRelationship_G]
  obtain ⟨d, hd, het⟩ := getEdge_foldl_participation_mem n ents
    (addNode s.G n { shape := some "diamond", node_type := some "relationship" }) he
  refine ⟨d, ?_, het⟩
  rw [getEdge_foldl_relAttr_eq n _ _ ?hm]
  · exact hd
  case hm =>
    intro a _ heq
    rw [Prod.mk.injEq] at heq
    exact attrNodeName_ne_owner n a heq.2.symm

theorem getNode_addRelationship_attr (s : State) (n : String) (ents : List String)
    {oattrs : Option (List Attr)} (hnd : ((oattrs.getD []).map Attr.name).Nodup)
    {a : Attr} (ha : a ∈ oattrs.getD []) :
    ∃ d, getNode (addRelationship s n ents oattrs).G (attrNodeName n a) = some d
      ∧ d.shape = some "oval" ∧ d.node_type = some "attribute"
      ∧ d.display_name = some (a.name ++ "\n(" ++ a.type.getD "VARCHAR" ++ ")") := by
  rw [addRelationship_G]
  obtain ⟨l1, l2, hsplit⟩ := List.append_of_mem ha
  rw [hsplit] at hnd ⊢
  have hnames := nodup_split_names hnd
  rw [List.foldl_append, List.foldl_cons]
  obtain ⟨d, hd, h1, h2, h3⟩ := getNode_relAttrStep_self n
    (l1.foldl (relAttrStep n) (ents.foldl (participationStep n)
      (addNode s.G n { shape := some "diamond", node_type := some "relationship" }))) a
  refine ⟨d, ?_, h1, h2, h3⟩
  refine getNode_foldl_relAttr_pres n l2 _ hd ?_
  intro b hb heq
  exact hnames.2 b hb (attrNodeName_inj n heq)

theorem getEdge_addRelationship_attr (s : State) (n : String) (ents : List String)
    {oattrs : Option (List Attr)} (hnd : ((oattrs.getD []).map Attr.name).Nodup)
    (hfresh : ∀ b ∈ oattrs.getD [], getEdge s.G n (attrNodeName n b) = none)
    {a : Attr} (ha : a ∈ oattrs.getD []) :
    getEdge (addRelationship s n ents oattrs).G n (attrNodeName n a)
      = some { edge_type := some "attribute", style := none } := by
  rw [addRelationship_G]
  obtain ⟨l1, l2, hsplit⟩ := List.append_of_mem ha
  rw [hsplit] at hnd ⊢
  have hnames := nodup_split_names hnd
  have hfr : getEdge s.G n (attrNodeName n a) = none := hfresh a ha
  rw [List.foldl_append, List.foldl_cons]
  have hbase : getEdge (l1.foldl (relAttrStep n) (ents.foldl (participationStep n)
      (addNode s.G n { shape := some "diamond", node_type := some "relationship" })))
      n (attrNodeName n a) = none := by
    rw [getEdge_foldl_relAttr_eq n l1 _ ?hm1]
    case hm1 =>
      intro b hb heq
      rw [Prod.mk.injEq] at heq
      exact hnames.1 b hb (attrNodeName_inj n heq.2.symm)
    rw [getEdge_foldl_participation_ne_target n ents _ (attrNodeName_ne_owner n a)]
    rw [getEdge_addNode]
    exact hfr
  have hstep := getEdge_relAttrStep_self n (l1.foldl (relAttrStep n)
    (ents.foldl (participationStep n)
      (addNode s.G n { shape := some "diamond", node_type := some "relationship" }))) a
  rw [hbase] at hstep
  rw [getEdge_foldl_relAttr_eq n l2 _ ?hm2]
  case hm2 =>
    intro b hb heq
    rw [Prod.mk.injEq] at heq
    exact hnames.2 b hb (attrNodeName_inj n heq.2)
  exact hstep

/-! Lemmas about `List.mapM` in the `Option` monad. -/

theorem mapM_opt_length {α β : Type} (f : α → Option β) :
    ∀ {l : List α} {r : List β}, l.mapM f = some r → r.length = l.length := by
  intro l
  induction l with
  | nil =>
      intro r h
      rw [List.mapM_nil] at h
      obtain rfl : ([] : List β) = r := Option.some.inj h
      rfl
  | cons a rest ih =>
      intro r h
      rw [List.mapM_cons] at h
      cases hf : f a with
      | none => rw [hf] at h; simp [Option.bind] at h
      | some b =>
          rw [hf] at h
          cases hr : rest.mapM f with
          | none => rw [hr] at h; simp [Option.bind] at h
          | some bs =>
              rw [hr] at h
              simp at h
              rw [h.symm]
              simp [ih hr]

theorem mapM_opt_none {α β : Type} (f : α → Option β) {l : List α} {a : α}
    (ha : a ∈ l) (hf : f a = none) : l.mapM f = none := by
  induction l with
  | nil => cases ha
  | cons x rest ih =>
      rw [List.mapM_cons]
      rcases List.mem_cons.mp ha with h | h
      · subst h
        rw [hf]
        rfl
      · cases hx : f x with
        | none => rfl
        | some b => rw [ih h]; rfl

theorem mapM_opt_map {α β : Type} (f : α → Option β) (g : α → β)
    (hfg : ∀ a b, f a = some b → b = g a) :
    ∀ {l : List α} {r : List β}, l.mapM f = some r → r = l.map g := by
  intro l
  induction l with
  | nil =>
      intro r h
      rw [List.mapM_nil] at h
      obtain rfl : ([] : List β) = r := Option.some.inj h
      rfl
  | cons a rest ih =>
      intro r h
      rw [List.mapM_cons] at h
      cases hf : f a with
      | none => rw [hf] at h; simp [Option.bind] at h
      | some b =>
          rw [hf] at h
          cases hr : rest.mapM f with
          | none => rw [hr] at h; simp [Option.bind] at h
          | some bs =>
              rw [hr] at h
              simp at h
              rw [h.symm, List.map_cons, hfg a b hf, ih hr]

theorem mapM_opt_mem {α β : Type} (f : α → Option β) {l : List α} {r : List β}
    (h : l.mapM f = some r) {a : α} (ha : a ∈ l) : ∃ b, f a = some b ∧ b ∈ r := by
  induction l generalizing r with
  | nil => cases ha
  | cons x rest ih =>
      rw [List.mapM_cons] at h
      cases hx : f x with
      | none => rw [hx] at h; simp [Option.bind] at h
      | some b =>
          rw [hx] at h
          cases hr : rest.mapM f with
          | none => rw [hr] at h; simp [Option.bind] at h
          | some bs =>
              rw [hr] at h
              simp at h
              rcases List.mem_cons.mp ha with hax | hax
              · subst hax
                exact ⟨b, hx, by rw [h.symm]; exact List.mem_cons_self _ _⟩
              · obtain ⟨c, hc, hcm⟩ := ih hr hax
                exact ⟨c, hc, by rw [h.symm]; exact List.mem_cons_of_mem _ hcm⟩

theorem mapM_colDef_eq {al : List Attr} (h : ∀ a ∈ al, (a.type).isSome) :
    al.mapM colDef
      = some (al.map (fun a => "    " ++ a.name ++ " " ++ a.type.getD "VARCHAR")) := by
  induction al with
  | nil => rfl
  | cons a rest ih =>
      rw [List.mapM_cons]
      obtain ⟨t, ht⟩ := Option.isSome_iff_exists.mp (h a (List.mem_cons_self _ _))
      rw [ih (fun b hb => h b (List.mem_cons_of_mem _ hb))]
      simp [colDef, ht]

/-! Refinement lemmas for the DDL exporter. -/

theorem colDef_spec (a : Attr) (b : String) (h : colDef a = some b) :
    b = "    " ++ a.name ++ " " ++ a.type.getD "VARCHAR" := by
  unfold colDef at h
  cases ht : a.type with
  | none => rw [ht] at h; simp at h
  | some t => rw [ht] at h; simp at h; simpa using h.symm

theorem specPkCol_eq (ents : List (String × List Attr)) (e : String) {a : List Attr}
    {t : String} (hget : dictGet ents e = some a) (ht : pkTypeOf a = some t) :
    specPkCol ents e = (pkNameOf a (e.toLower ++ "_id"), t) := by
  unfold specPkCol pkNameOf
  rw [hget]
  unfold pkTypeOf at ht
  cases hf : a.find? (fun x => x.is_key) with
  | none =>
      rw [hf] at ht
      simp at ht
      simp [hf, ht]
  | some k =>
      rw [hf] at ht
      simp at ht
      simp [hf, ht]

theorem entityTableSql_eq (n : String) (al : List Attr) (h : ∀ a ∈ al, (a.type).isSome) :
    entityTableSql n al = some (specEntityTable n al) := by
  unfold entityTableSql specEntityTable
  rw [mapM_colDef_eq h]
  simp only [Option.bind]
  cases hk : ((al.filter (fun a => a.is_key)).map (fun a => a.name)).isEmpty <;>
    simp [hk, String.append_assoc]

theorem relStatement_eq (ents : List (String × List Attr)) (rn : String) (rd : RelData)
    {l : List String} (h : relStatement ents (rn, rd) = some l) :
    l = if joinGate rd then [specJoinTable ents rn rd] else [] := by
  obtain ⟨res, rattrs⟩ := rd
  rcases res with _ | ⟨e1, _ | ⟨e2, _ | ⟨e3, rest⟩⟩⟩
  · unfold relStatement at h
    simp at h
    subst h
    simp [joinGate]
  · unfold relStatement at h
    simp at h
    subst h
    simp [joinGate]
  · -- binary case
    unfold relStatement at h
    dsimp only at h
    cases h1 : dictGet ents e1 with
    | none =>
        rw [h1] at h
        simp only [Option.bind_eq_bind, Option.none_bind] at h
        exact Option.noConfusion h
    | some a1 =>
    rw [h1] at h
    simp only [Option.bind_eq_bind, Option.some_bind] at h
    cases h2 : dictGet ents e2 with
    | none =>
        rw [h2] at h
        simp only [Option.bind_eq_bind, Option.none_bind] at h
        exact Option.noConfusion h
    | some a2 =>
    rw [h2] at h
    simp only [Option.bind_eq_bind, Option.some_bind] at h
    cases hemp : rattrs.isEmpty with
    | true =>
        rw [hemp] at h
        simp at h
        subst h
        simp [joinGate, hemp]
    | false =>
        rw [hemp] at h
        simp only [Bool.false_eq_true, if_false] at h
        cases h3 : pkTypeOf a1 with
        | none =>
            rw [h3] at h
            simp only [Option.bind_eq_bind, Option.none_bind] at h
            exact Option.noConfusion h
        | some t1 =>
        rw [h3] at h
        simp only [Option.bind_eq_bind, Option.some_bind] at h
        cases h4 : pkTypeOf a2 with
        | none =>
            rw [h4] at h
            simp only [Option.bind_eq_bind, Option.none_bind] at h
            exact Option.noConfusion h
        | some t2 =>
        rw [h4] at h
        simp only [Option.bind_eq_bind, Option.some_bind] at h
        cases h5 : rattrs.mapM colDef with
        | none =>
            rw [h5] at h
            simp only [Option.bind_eq_bind, Option.none_bind] at h
            exact Option.noConfusion h
        | some lines =>
        rw [h5] at h
        simp only [Option.bind_eq_bind, Option.some_bind, Option.pure_def,
          Option.some.injEq] at h
        have hlines : lines
            = rattrs.map (fun a => "    " ++ a.name ++ " " ++ a.type.getD "VARCHAR") :=
          mapM_opt_map colDef _ colDef_spec h5
        have hgate : joinGate ⟨[e1, e2], rattrs⟩ = true := by
          simp [joinGate, hemp]
        rw [hgate]
        simp only [if_true]
        rw [h.symm]
        unfold specJoinTable
        dsimp only
        rw [specPkCol_eq ents e1 h1 h3, specPkCol_eq ents e2 h2 h4]
        rw [hlines]
  · -- three or more participants
    unfold relStatement at h
    simp at h
    subst h
    simp [joinGate]

theorem relStmts_flatten (ents : List (String × List Attr)) :
    ∀ {rels : List (String × RelData)} {ls : List (List String)},
      rels.mapM (relStatement ents) = some ls →
      ls.flatten = (rels.filter (fun p => joinGate p.2)).map
        (fun p => specJoinTable ents p.1 p.2) := by
  intro rels
  induction rels with
  | nil =>
      intro ls h
      rw [List.mapM_nil] at h
      obtain rfl : ([] : List (List String)) = ls := Option.some.inj h
      rfl
  | cons p rest ih =>
      intro ls h
      obtain ⟨rn, rd⟩ := p
      rw [List.mapM_cons] at h
      cases hp : relStatement ents (rn, rd) with
      | none =>
          rw [hp] at h
          simp only [Option.bind_eq_bind, Option.none_bind] at h
          exact Option.noConfusion h
      | some l0 =>
      rw [hp] at h
      simp only [Option.bind_eq_bind, Option.some_bind] at h
      cases hr : rest.mapM (relStatement ents) with
      | none =>
          rw [hr] at h
          simp only [Option.bind_eq_bind, Option.none_bind] at h
          exact Option.noConfusion h
      | some ls0 =>
      rw [hr] at h
      simp only [Option.bind_eq_bind, Option.some_bind, Option.pure_def,
        Option.some.injEq] at h
      subst h
      have hl0 := relStatement_eq ents rn rd hp
      rw [List.flatten_cons, ih hr, List.filter_cons]
      cases hg : joinGate rd with
      | true =>
          rw [hg] at hl0
          simp only [if_true] at hl0
          subst hl0
          simp [hg]
      | false =>
          rw [hg] at hl0
          simp only [Bool.false_eq_true, if_false] at hl0
          subst hl0
          simp [hg]

/-- Claim C2: `exportDDL` emits a join-table CREATE TABLE for a
relationship exactly when it has exactly 2 participants and at least
one relationship attribute (the `joinGate` filter); each emitted join
table is `specJoinTable`: one column per participant named and typed
after that participant's primary-key attribute (falling back to
`<entityNameLower>_id` with type `INT` when the participant has no key
attribute), then the relationship's own attribute columns, a composite
`PRIMARY KEY` over the two participant columns, and two `FOREIGN KEY`
clauses referencing the participant tables' key columns; relationships
failing the gate contribute nothing.  The join tables follow the
entity tables (one per entity) in relationship insertion order. -/
theorem claim_C2 (s : State) (stmts : List String)
    (h : exportStatements s = some stmts) :
    ∃ entStmts, stmts = entStmts
        ++ ((s.relationships.filter (fun p => joinGate p.2)).map
            (fun p => specJoinTable s.entities p.1 p.2))
      ∧ entStmts.length = s.entities.length := by
  unfold exportStatements at h
  cases h1 : s.entities.mapM (fun p => entityTableSql p.1 p.2) with
  | none =>
      rw [h1] at h
      simp only [Option.bind_eq_bind, Option.none_bind] at h
      exact Option.noConfusion h
  | some es =>
  rw [h1] at h
  simp only [Option.bind_eq_bind, Option.some_bind] at h
  cases h2 : s.relationships.mapM (relStatement s.entities) with
  | none =>
      rw [h2] at h
      simp only [Option.bind_eq_bind, Option.none_bind] at h
      exact Option.noConfusion h
  | some rs =>
  rw [h2] at h
  simp only [Option.bind_eq_bind, Option.some_bind, Option.pure_def,
    Option.some.injEq] at h
  subst h
  exact ⟨es, by rw [relStmts_flatten s.entities h2], mapM_opt_length _ h1⟩

theorem entityTableSql_none_of_attr_no_type {al : List Attr} {a : Attr} (n : String)
    (ha : a ∈ al) (ht : a.type = none) : entityTableSql n al = none := by
  have hcol : colDef a = none := by unfold colDef; rw [ht]; rfl
  unfold entityTableSql
  rw [mapM_opt_none colDef ha hcol]
  rfl

theorem exportStatements_none_of_attr_no_type {s : State} {n : String} {al : List Attr}
    {a : Attr} (hmem : (n, al) ∈ s.entities) (ha : a ∈ al) (ht : a.type = none) :
    exportStatements s = none := by
  have hent : (fun (p : String × List Attr) => entityTableSql p.1 p.2) (n, al) = none :=
    entityTableSql_none_of_attr_no_type n ha ht
  have hm : s.entities.mapM (fun p => entityTableSql p.1 p.2) = none :=
    mapM_opt_none _ hmem hent
  unfold exportStatements
  rw [hm]
  rfl

theorem find?_key_first {pre post : List Attr} {k : Attr}
    (hpre : ∀ b ∈ pre, b.is_key = false) (hk : k.is_key = true) :
    (pre ++ k :: post).find? (fun a => a.is_key) = some k := by
  rw [List.find?_append]
  have h1 : pre.find? (fun a => a.is_key) = none := by
    rw [List.find?_eq_none]
    intro b hb
    simp [hpre b hb]
  rw [h1, List.find?_cons_of_pos _ hk]
  rfl

theorem relStatement_congr {ents ents' : List (String × List Attr)}
    (h : ∀ e, (dictGet ents e).map (fun al => al.find? (fun a => a.is_key))
      = (dictGet ents' e).map (fun al => al.find? (fun a => a.is_key)))
    (p : String × RelData) : relStatement ents p = relStatement ents' p := by
  obtain ⟨rn, rd⟩ := p
  obtain ⟨res, rattrs⟩ := rd
  rcases res with _ | ⟨e1, _ | ⟨e2, _ | ⟨e3, rest⟩⟩⟩
  · rfl
  · rfl
  · -- binary case
    have he1 := h e1
    have he2 := h e2
    unfold relStatement
    dsimp only
    cases h1 : dictGet ents e1 with
    | none =>
        have h1b : dictGet ents' e1 = none := by
          rw [h1] at he1
          cases hx : dictGet ents' e1 with
          | none => rfl
          | some y => rw [hx] at he1; simp at he1
        rw [h1b]
        rfl
    | some a1 =>
    obtain ⟨a1b, h1b, hf1⟩ : ∃ a1b, dictGet ents' e1 = some a1b
        ∧ a1.find? (fun a => a.is_key) = a1b.find? (fun a => a.is_key) := by
      rw [h1] at he1
      cases hx : dictGet ents' e1 with
      | none => rw [hx] at he1; simp at he1
      | some y =>
          rw [hx] at he1
          simp at he1
          exact ⟨y, rfl, he1⟩
    rw [h1b]
    simp only [Option.bind_eq_bind, Option.some_bind]
    cases h2 : dictGet ents e2 with
    | none =>
        have h2b : dictGet ents' e2 = none := by
          rw [h2] at he2
          cases hx : dictGet ents' e2 with
          | none => rfl
          | some y => rw [hx] at he2; simp at he2
        rw [h2b]
        rfl
    | some a2 =>
    obtain ⟨a2b, h2b, hf2⟩ : ∃ a2b, dictGet ents' e2 = some a2b
        ∧ a2.find? (fun a => a.is_key) = a2b.find? (fun a => a.is_key) := by
      rw [h2] at he2
      cases hx : dictGet ents' e2 with
      | none => rw [hx] at he2; simp at he2
      | some y =>
          rw [hx] at he2
          simp at he2
          exact ⟨y, rfl, he2⟩
    rw [h2b]
    simp only [Option.bind_eq_bind, Option.some_bind]
    have hpk1 : ∀ fb, pkNameOf a1 fb = pkNameOf a1b fb := by
      intro fb; unfold pkNameOf; rw [hf1]
    have hpk2 : ∀ fb, pkNameOf a2 fb = pkNameOf a2b fb := by
      intro fb; unfold pkNameOf; rw [hf2]
    have hty1 : pkTypeOf a1 = pkTypeOf a1b := by unfold pkTypeOf; rw [hf1]
    have hty2 : pkTypeOf a2 = pkTypeOf a2b := by unfold pkTypeOf; rw [hf2]
    rw [hpk1, hpk2, hty1, hty2]
  · rfl

/-! Concrete fixtures used by witnesses and counterexamples. -/

def axKey : Attr := { name := "x", type := some "INT", is_key := true }

def ayPlain : Attr := { name := "y", type := some "TEXT" }

def azDerived : Attr := { name := "z", type := some "DATE", is_derived := true }

def awNoType : Attr := { name := "w" }

def akSecondKey : Attr := { name := "k2", type := some "BIGINT", is_key := true }

/-! Claim theorems. -/

/-- Claim C8: `add_entity` never raises — it is a total function of the
state — and afterwards the entity dict binds the given name to exactly
the attribute list just passed, whatever was bound before
(src/erd.py:16 `self.entities[name] = attributes`). -/
theorem claim_C8 (s : State) (n : String) (al : List Attr) :
    dictGet (addEntity s n al).entities n = some al := by
  rw [addEntity_entities]
  exact dictGet_dictInsert_self _ _ _

/-- Claim C1 counterexample: `add_entity` with a name that is already
an entity does not fail and does not leave the model unchanged — the
second call replaces the first entity's attribute list, so the claimed
`DuplicateNameError` rejection does not happen. -/
theorem claim_C1_cx :
    dictGet (addEntity emptyState "A" [axKey]).entities "A" = some [axKey]
    ∧ dictGet (addEntity (addEntity emptyState "A" [axKey]) "A" [ayPlain]).entities "A"
        = some [ayPlain]
    ∧ ([ayPlain] : List Attr) ≠ [axKey] :=
  ⟨rfl, rfl, by decide⟩

/-- Claim C1 amended: `add_entity` with a name already used by an
entity (or any name at all) performs no duplicate check and raises
nothing; the second call overwrites the first binding
(last-write-wins), keeping the entity's dict position. -/
theorem claim_C1_amended (s : State) (n : String) (al al2 : List Attr) :
    dictGet (addEntity (addEntity s n al) n al2).entities n = some al2 := by
  rw [addEntity_entities, addEntity_entities]
  exact dictGet_dictInsert_self _ _ _

/-- Claim C4 counterexample: `add_relationship` with participant "B"
never registered as an entity does not fail with `UnknownEntityError`
and does not leave the model unchanged — the relationship is
registered anyway. -/
theorem claim_C4_cx :
    dictGet (addEntity emptyState "A" [axKey]).entities "B" = none
    ∧ dictGet (addRelationship (addEntity emptyState "A" [axKey]) "R" ["A", "B"]
        none).relationships "R" = some { entities := ["A", "B"], attributes := [] } :=
  ⟨rfl, rfl⟩

/-- Claim C4 amended: `add_relationship` performs no participant
validation: even when some participant name is not a registered
entity, the call succeeds, registers the relationship, and adds a
participation edge from the (implicitly created) participant node. -/
theorem claim_C4_amended (s : State) (n : String) (parts : List String)
    (oattrs : Option (List Attr)) (e : String) (he : e ∈ parts)
    (_hunknown : dictGet s.entities e = none) :
    dictGet (addRelationship s n parts oattrs).relationships n
      = some { entities := parts, attributes := oattrs.getD [] }
    ∧ ∃ d, getEdge (addRelationship s n parts oattrs).G e n = some d
        ∧ d.edge_type = some "participation" := by
  refine ⟨?_, getEdge_addRelationship_participation s n oattrs he⟩
  rw [addRelationship_relationships]
  exact dictGet_dictInsert_self _ _ _

theorem claim_C4_witness :
    (("B" : String) ∈ (["A", "B"] : List String))
    ∧ dictGet (addEntity emptyState "A" [axKey]).entities "B" = none
    ∧ (dictGet (addRelationship (addEntity emptyState "A" [axKey]) "R" ["A", "B"]
          none).relationships "R" = some { entities := ["A", "B"], attributes := [] }
        ∧ ∃ d, getEdge (addRelationship (addEntity emptyState "A" [axKey]) "R" ["A", "B"]
            none).G "B" "R" = some d ∧ d.edge_type = some "participation") :=
  ⟨by decide, rfl,
    claim_C4_amended (addEntity emptyState "A" [axKey]) "R" ["A", "B"] none "B"
      (by decide) rfl⟩

/-- Claim C5 counterexample: `add_relationship` with a single
participant (fewer than 2 distinct participants) does not fail with
`InsufficientParticipantsError`; the relationship is registered. -/
theorem claim_C5_cx :
    ((["A"] : List String).length < 2)
    ∧ dictGet (addRelationship emptyState "R" ["A"] none).relationships "R"
        = some { entities := ["A"], attributes := [] } :=
  ⟨by decide, rfl⟩

/-- Claim C5 amended: `add_relationship` performs no participant-count
validation: with fewer than 2 distinct participants it still succeeds
and registers the relationship with exactly the given participant
list. -/
theorem claim_C5_amended (s : State) (n : String) (parts : List String)
    (oattrs : Option (List Attr)) (_hcount : parts.dedup.length < 2) :
    dictGet (addRelationship s n parts oattrs).relationships n
      = some { entities := parts, attributes := oattrs.getD [] } := by
  rw [addRelationship_relationships]
  exact dictGet_dictInsert_self _ _ _

theorem claim_C5_witness :
    ((["A"] : List String).dedup.length < 2)
    ∧ dictGet (addRelationship emptyState "R2" ["A"] none).relationships "R2"
        = some { entities := ["A"], attributes := [] } :=
  ⟨by decide, claim_C5_amended emptyState "R2" ["A"] none (by decide)⟩

/-- Claim C3: for every entity whose attributes all carry a type (the
condition under which the exporter does not hit a `KeyError`), the
emitted CREATE TABLE statement is exactly `specEntityTable`: column
list in attribute insertion order, a `PRIMARY KEY` clause listing
exactly the key attribute names in declaration order, and the clause
omitted — without failure — when there is no key attribute; moreover
that statement appears in any successful full export containing the
entity. -/
theorem claim_C3 (n : String) (al : List Attr) (h : ∀ a ∈ al, (a.type).isSome) :
    entityTableSql n al = some (specEntityTable n al)
    ∧ ∀ (s : State) (stmts : List String), exportStatements s = some stmts →
        (n, al) ∈ s.entities → specEntityTable n al ∈ stmts := by
  refine ⟨entityTableSql_eq n al h, ?_⟩
  intro s stmts hex hmem
  unfold exportStatements at hex
  cases h1 : s.entities.mapM (fun p => entityTableSql p.1 p.2) with
  | none =>
      rw [h1] at hex
      simp only [Option.bind_eq_bind, Option.none_bind] at hex
      exact Option.noConfusion hex
  | some es =>
  rw [h1] at hex
  simp only [Option.bind_eq_bind, Option.some_bind] at hex
  cases h2 : s.relationships.mapM (relStatement s.entities) with
  | none =>
      rw [h2] at hex
      simp only [Option.bind_eq_bind, Option.none_bind] at hex
      exact Option.noConfusion hex
  | some rs =>
  rw [h2] at hex
  simp only [Option.bind_eq_bind, Option.some_bind, Option.pure_def,
    Option.some.injEq] at hex
  obtain ⟨b, hb, hbm⟩ := mapM_opt_mem _ h1 hmem
  have hbs : b = specEntityTable n al := by
    have := entityTableSql_eq n al h
    rw [this] at hb
    exact (Option.some.inj hb).symm
  rw [hex.symm]
  exact List.mem_append_left _ (hbs ▸ hbm)

theorem claim_C3_witness :
    (∀ a ∈ [axKey, ayPlain], (a.type).isSome)
    ∧ (entityTableSql "E" [axKey, ayPlain] = some (specEntityTable "E" [axKey, ayPlain])
        ∧ ∀ (s : State) (stmts : List String), exportStatements s = some stmts →
            ("E", [axKey, ayPlain]) ∈ s.entities
            → specEntityTable "E" [axKey, ayPlain] ∈ stmts) :=
  ⟨by decide, claim_C3 "E" [axKey, ayPlain] (by decide)⟩

/-- Claim C9: an attribute may omit its type for graph projection —
the attribute node's display label then shows the default `VARCHAR` —
but `export_to_sql` reads `attr['type']` unconditionally, so the whole
DDL export fails (returns `none`, the `KeyError`) as soon as any
entity attribute lacks a type; DDL export is therefore total only when
every entity attribute carries an explicit type. -/
theorem claim_C9 :
    (∀ (s : State) (n : String) (al : List Attr) (a : Attr),
        (n, al) ∈ s.entities → a ∈ al → a.type = none → exportToSql s = none)
    ∧ (∀ (s : State) (n : String) (al : List Attr) (a : Attr),
        (al.map Attr.name).Nodup → a ∈ al → a.type = none →
        ∃ d, getNode (addEntity s n al).G (attrNodeName n a) = some d
          ∧ d.display_name = some (a.name ++ "\n(" ++ "VARCHAR" ++ ")")) := by
  constructor
  · intro s n al a hmem ha ht
    unfold exportToSql
    rw [exportStatements_none_of_attr_no_type hmem ha ht]
    rfl
  · intro s n al a hnd ha ht
    refine ⟨entityAttrNodeData a, getNode_addEntity_attr s n hnd ha, ?_⟩
    unfold entityAttrNodeData
    rw [ht]
    rfl

theorem claim_C9_witness :
    (("F", [awNoType]) ∈ (addEntity emptyState "F" [awNoType]).entities
      ∧ awNoType ∈ [awNoType] ∧ awNoType.type = none
      ∧ ([awNoType].map Attr.name).Nodup)
    ∧ exportToSql (addEntity emptyState "F" [awNoType]) = none
    ∧ ∃ d, getNode (addEntity emptyState "F" [awNoType]).G (attrNodeName "F" awNoType)
        = some d ∧ d.display_name = some (awNoType.name ++ "\n(" ++ "VARCHAR" ++ ")") :=
  ⟨⟨by decide, by decide, rfl, by decide⟩,
    claim_C9.1 (addEntity emptyState "F" [awNoType]) "F" [awNoType] awNoType
      (by decide) (by decide) rfl,
    claim_C9.2 emptyState "F" [awNoType] awNoType (by decide) (by decide) rfl⟩

/-- Claim C6: `add_entity` puts into the graph one entity node (shape
box, type entity) plus, per attribute, one attribute node whose
display label combines name and type and which carries the
`is_key` / `is_derived` flags, and one ownership edge entity→attribute
whose stored style is `"dotted"` exactly when the attribute is derived
— the style the renderer draws dashed (`renderedDashed`) — and
`"solid"` otherwise; `add_relationship` puts in one relationship node
(diamond), one participation edge entity→relationship per participant,
and per relationship attribute an attribute node (no flags) with an
ownership edge relationship→attribute that carries no style and is
therefore always rendered solid.  Attribute names are assumed unique
within their owner, and for relationship-attribute edges the edge must
not pre-exist (otherwise networkx keeps the old style fields). -/
theorem claim_C6 (s t : State) (en rn : String) (eAttrs : List Attr)
    (parts : List String) (rAttrs : Option (List Attr))
    (hen : (eAttrs.map Attr.name).Nodup)
    (hrn : ((rAttrs.getD []).map Attr.name).Nodup)
    (hfresh : ∀ b ∈ rAttrs.getD [], getEdge t.G rn (attrNodeName rn b) = none) :
    ((∃ d, getNode (addEntity s en eAttrs).G en = some d
        ∧ d.shape = some "box" ∧ d.node_type = some "entity")
      ∧ (∀ a ∈ eAttrs, getNode (addEntity s en eAttrs).G (attrNodeName en a)
          = some { shape := some "oval", node_type := some "attribute",
                   display_name := some (a.name ++ "\n(" ++ a.type.getD "VARCHAR" ++ ")"),
                   is_key := some a.is_key, is_derived := some a.is_derived })
      ∧ (∀ a ∈ eAttrs, ∃ d,
          getEdge (addEntity s en eAttrs).G en (attrNodeName en a) = some d
          ∧ d.edge_type = some "attribute"
          ∧ renderedDashed d = a.is_derived
          ∧ effectiveStyle d = (if a.is_derived then "dotted" else "solid")))
    ∧ ((∃ d, getNode (addRelationship t rn parts rAttrs).G rn = some d
        ∧ d.shape = some "diamond" ∧ d.node_type = some "relationship")
      ∧ (∀ e ∈ parts, ∃ d, getEdge (addRelationship t rn parts rAttrs).G e rn = some d
          ∧ d.edge_type = some "participation")
      ∧ (∀ a ∈ rAttrs.getD [], ∃ d,
          getNode (addRelationship t rn parts rAttrs).G (attrNodeName rn a) = some d
          ∧ d.shape = some "oval" ∧ d.node_type = some "attribute"
          ∧ d.display_name = some (a.name ++ "\n(" ++ a.type.getD "VARCHAR" ++ ")"))
      ∧ (∀ a ∈ rAttrs.getD [], ∃ d,
          getEdge (addRelationship t rn parts rAttrs).G rn (attrNodeName rn a) = some d
          ∧ d.edge_type = some "attribute"
          ∧ renderedDashed d = false
          ∧ effectiveStyle d = "solid")) := by
  refine ⟨⟨getNode_addEntity_name s en eAttrs, ?_, ?_⟩,
    getNode_addRelationship_name t rn parts rAttrs, ?_, ?_, ?_⟩
  · intro a ha
    exact getNode_addEntity_attr s en hen ha
  · intro a ha
    refine ⟨{ edge_type := some "attribute",
              style := some (if a.is_derived then "dotted" else "solid") },
      getEdge_addEntity_attr s en hen ha, rfl, ?_, ?_⟩
    · cases hder : a.is_derived <;> simp [renderedDashed, hder]
    · cases hder : a.is_derived <;> simp [effectiveStyle, hder]
  · intro e he
    exact getEdge_addRelationship_participation t rn rAttrs he
  · intro a ha
    exact getNode_addRelationship_attr t rn parts hrn ha
  · intro a ha
    exact ⟨{ edge_type := some "attribute", style := none },
      getEdge_addRelationship_attr t rn parts hrn hfresh ha, rfl, rfl, rfl⟩

theorem claim_C6_witness :
    (((([axKey, azDerived] : List Attr).map Attr.name).Nodup)
      ∧ ((((some [ayPlain] : Option (List Attr)).getD []).map Attr.name).Nodup)
      ∧ (∀ b ∈ (some [ayPlain] : Option (List Attr)).getD [],
          getEdge (addEntity emptyState "A" [axKey]).G "R" (attrNodeName "R" b) = none))
    ∧ (((∃ d, getNode (addEntity emptyState "A" [axKey, azDerived]).G "A" = some d
        ∧ d.shape = some "box" ∧ d.node_type = some "entity")
      ∧ (∀ a ∈ [axKey, azDerived],
          getNode (addEntity emptyState "A" [axKey, azDerived]).G (attrNodeName "A" a)
          = some { shape := some "oval", node_type := some "attribute",
                   display_name := some (a.name ++ "\n(" ++ a.type.getD "VARCHAR" ++ ")"),
                   is_key := some a.is_key, is_derived := some a.is_derived })
      ∧ (∀ a ∈ [axKey, azDerived], ∃ d,
          getEdge (addEntity emptyState "A" [axKey, azDerived]).G "A" (attrNodeName "A" a)
            = some d
          ∧ d.edge_type = some "attribute"
          ∧ renderedDashed d = a.is_derived
          ∧ effectiveStyle d = (if a.is_derived then "dotted" else "solid")))
    ∧ ((∃ d, getNode (addRelationship (addEntity emptyState "A" [axKey]) "R" ["A"]
          (some [ayPlain])).G "R" = some d
        ∧ d.shape = some "diamond" ∧ d.node_type = some "relationship")
      ∧ (∀ e ∈ ["A"], ∃ d, getEdge (addRelationship (addEntity emptyState "A" [axKey])
          "R" ["A"] (some [ayPlain])).G e "R" = some d
          ∧ d.edge_type = some "participation")
      ∧ (∀ a ∈ (some [ayPlain] : Option (List Attr)).getD [], ∃ d,
          getNode (addRelationship (addEntity emptyState "A" [axKey]) "R" ["A"]
            (some [ayPlain])).G (attrNodeName "R" a) = some d
          ∧ d.shape = some "oval" ∧ d.node_type = some "attribute"
          ∧ d.display_name = some (a.name ++ "\n(" ++ a.type.getD "VARCHAR" ++ ")"))
      ∧ (∀ a ∈ (some [ayPlain] : Option (List Attr)).getD [], ∃ d,
          getEdge (addRelationship (addEntity emptyState "A" [axKey]) "R" ["A"]
            (some [ayPlain])).G "R" (attrNodeName "R" a) = some d
          ∧ d.edge_type = some "attribute"
          ∧ renderedDashed d = false
          ∧ effectiveStyle d = "solid"))) :=
  ⟨⟨by decide, by decide, by decide⟩,
    claim_C6 emptyState (addEntity emptyState "A" [axKey]) "A" "R" [axKey, azDerived]
      ["A"] (some [ayPlain]) (by decide) (by decide) (by decide)⟩

/-- Claim C7: the projection (the clear-and-rebuild phase of
`generate_from_ai`, src/erd.py:137-157) yields a state that depends
only on the ingested template, not on any prior state — the three
`clear()` calls discard the model and graph before rebuilding — so two
projections of the same unchanged template have equal entity and
relationship dicts and set-equal node and edge sets, and projecting
again after projecting changes nothing. -/
theorem claim_C7 (s1 s2 : State) (t : Template) :
    (generateFromTemplate s1 t).entities = (generateFromTemplate s2 t).entities
    ∧ (generateFromTemplate s1 t).relationships = (generateFromTemplate s2 t).relationships
    ∧ (∀ x, x ∈ (generateFromTemplate s1 t).G.nodes ↔ x ∈ (generateFromTemplate s2 t).G.nodes)
    ∧ (∀ x, x ∈ (generateFromTemplate s1 t).G.edges ↔ x ∈ (generateFromTemplate s2 t).G.edges)
    ∧ generateFromTemplate (generateFromTemplate s1 t) t = generateFromTemplate s1 t :=
  ⟨rfl, rfl, fun _ => Iff.rfl, fun _ => Iff.rfl, rfl⟩

/-- Claim C10: when a join-table participant has several key
attributes, only the first one in declaration order is used — its name
becomes the join column (`pkNameOf`), its type the column type
(`pkTypeOf`, hence the spec-side column `specPkCol`), and the
composite primary key and foreign key reuse that same name — while
everything after the first key attribute is ignored: replacing it
arbitrarily (in particular carrying further key attributes) leaves the
emitted relationship statement unchanged, so no composite reference is
formed. -/
theorem claim_C10 (ents : List (String × List Attr)) (rn e1 e2 : String) (rd : RelData)
    (pre post : List Attr) (k : Attr) (t : String)
    (_hre : rd.entities = [e1, e2])
    (hget : dictGet ents e1 = some (pre ++ k :: post))
    (hpre : ∀ b ∈ pre, b.is_key = false)
    (hk : k.is_key = true)
    (ht : k.type = some t) :
    pkNameOf (pre ++ k :: post) (e1.toLower ++ "_id") = k.name
    ∧ pkTypeOf (pre ++ k :: post) = some t
    ∧ specPkCol ents e1 = (k.name, t)
    ∧ ∀ post2 : List Attr,
        relStatement ents (rn, rd)
          = relStatement (dictInsert ents e1 (pre ++ k :: post2)) (rn, rd) := by
  have hfind : (pre ++ k :: post).find? (fun a => a.is_key) = some k :=
    find?_key_first hpre hk
  refine ⟨?_, ?_, ?_, ?_⟩
  · unfold pkNameOf
    rw [hfind]
    rfl
  · unfold pkTypeOf
    rw [hfind]
    exact ht
  · unfold specPkCol
    rw [hget]
    simp only [Option.getD_some]
    rw [hfind]
    dsimp only
    rw [ht]
    rfl
  · intro post2
    refine relStatement_congr (fun e => ?_) (rn, rd)
    by_cases he : e = e1
    · subst he
      rw [hget, dictGet_dictInsert_self]
      have h2 : (pre ++ k :: post2).find? (fun a => a.is_key) = some k :=
        find?_key_first hpre hk
      simp [hfind, h2]
    · rw [dictGet_dictInsert_ne _ _ he]

theorem claim_C10_witness :
    (dictGet [("E1", [ayPlain, axKey, akSecondKey])] "E1"
        = some ([ayPlain] ++ axKey :: [akSecondKey])
      ∧ (∀ b ∈ [ayPlain], b.is_key = false) ∧ axKey.is_key = true
      ∧ axKey.type = some "INT")
    ∧ (pkNameOf ([ayPlain] ++ axKey :: [akSecondKey]) ("E1".toLower ++ "_id") = axKey.name
      ∧ pkTypeOf ([ayPlain] ++ axKey :: [akSecondKey]) = some "INT"
      ∧ specPkCol [("E1", [ayPlain, axKey, akSecondKey])] "E1" = (axKey.name, "INT")
      ∧ ∀ post2 : List Attr,
          relStatement [("E1", [ayPlain, axKey, akSecondKey])]
              ("R", { entities := ["E1", "E1"], attributes := [ayPlain] })
            = relStatement (dictInsert [("E1", [ayPlain, axKey, akSecondKey])] "E1"
                ([ayPlain] ++ axKey :: post2))
              ("R", { entities := ["E1", "E1"], attributes := [ayPlain] })) :=
  ⟨⟨by decide, by decide, rfl, rfl⟩,
    claim_C10 [("E1", [ayPlain, axKey, akSecondKey])] "R" "E1" "E1"
      { entities := ["E1", "E1"], attributes := [ayPlain] }
      [ayPlain] [akSecondKey] axKey "INT" rfl (by decide) (by decide) rfl rfl⟩

/-- Concrete model exercising claim C2: one keyed entity, one keyless
entity, a binary relationship with an attribute (emits a join table
with the `tag_id INT` fallback) and a binary relationship without
attributes (emits nothing). -/
def wExportState : State :=
  addRelationship
    (addRelationship
      (addEntity (addEntity emptyState "Book" [axKey, ayPlain]) "Tag" [ayPlain])
      "Tagged" ["Tag", "Book"] (some [azDerived]))
    "Plain" ["Book", "Tag"] none

def wExportStmts : List String := (exportStatements wExportState).getD []

theorem claim_C2_witness :
    exportStatements wExportState = some wExportStmts
    ∧ ∃ entStmts, wExportStmts = entStmts
        ++ ((wExportState.relationships.filter (fun p => joinGate p.2)).map
            (fun p => specJoinTable wExportState.entities p.1 p.2))
      ∧ entStmts.length = wExportState.entities.length :=
  ⟨rfl, claim_C2 wExportState wExportStmts rfl⟩

end Erd
